import Mathlib

/-!
Shallow embedding of the kaeomm transaction engine (`src/transactions.py`,
with the canonicalization helpers of `src/config.py` and the source registry
of `src/sources.py`), together with proofs about its mutation operations.

Modelling conventions:
* a pandas DataFrame row is a `Record`; the store (`Transactions._df`) is a
  `List Record` kept inside `Trans` together with the source registry;
* pandas `NaN` / nullable cells are `Option`;
* monetary values are `Int` (exact arithmetic on the integer-valued inputs the
  engine manipulates; the Python float arithmetic is exact on them as well);
* a Python method returning a `StdReturn` is modelled as `Outcome × state`;
  an uncaught Python exception is `Outcome.raised`;
* `df.loc[i]` positional row access is `List.getElem?` (the store always has a
  fresh `RangeIndex`: every mutation ends in `_sort`, which calls
  `reset_index`), and the vectorized `df.loc[targets, col] = v` assignment is
  `setAt`;
* the file system seen by `save`/`backup`/`load` is a name → table map `FS`.
-/

namespace Kaeomm

/-- Model of Python `str.lower()` (per-character lowering). -/
def strLower (s : String) : String := ⟨s.data.map Char.toLower⟩

/-- Model of Python `str.capitalize()` applied to an already lowered string:
the first character is uppercased, the rest kept. -/
def strCapitalize (s : String) : String :=
  match s.data with
  | [] => ⟨[]⟩
  | c :: cs => ⟨Char.toUpper c :: cs⟩

/-- Value returned by `Config.add_new_category`: `category.lower().capitalize()`. -/
def canonCategory (c : String) : String := strCapitalize (strLower c)

/-- Value returned by `Config.add_new_tag`: `tag.lower().capitalize()`. -/
def canonTag (t : String) : String := strCapitalize (strLower t)

/-- One entry of the source registry (`sources.Source`): the fields the
transaction engine reads. -/
structure Source where
  name : String
  id : Nat
  currency : String
deriving DecidableEq

/-- One row of the transactions DataFrame, fields in `Config.headers()` order.
`Option` models a pandas `NaN` cell. -/
structure Record where
  id : Option Nat
  time : Nat
  input : String
  type : Option String
  source : String
  source_id : Nat
  desc : Option String
  amount : Int
  fee : Int
  total : Int
  curr : String
  note : Option String
  system : Option String
  allot : Option Nat
  link : Option Nat
  category : Option String
  tags : Option String
deriving DecidableEq

/-- The `Transactions` object state: the DataFrame plus the source registry it
holds (`self._sources.sources`). -/
structure Trans where
  records : List Record
  srcs : List Source
deriving DecidableEq

/-- Error kinds of the `StdReturn` failures the engine produces, named as in
the specification. -/
inductive TErr where
  | unknownSource
  | nothingToSplit
  | splitExceedsTotal
  | splitExceedsField
  | alreadySplitPiece
  | insufficientTargets
  | conflictingLinks
  | ambiguousTarget
  | emptySearch
  | addBulkIssue
  | ioError
deriving DecidableEq

/-- Result of a call: success, a failure `StdReturn`, or an uncaught Python
exception. -/
inductive Outcome where
  | ok
  | fail (e : TErr)
  | raised (msg : String)
deriving DecidableEq

/-- `df['id'].max()` with pandas NaN-skipping semantics: `none` when no row
has an id (the max of an all-NaN column is NaN). -/
def maxId (l : List Record) : Option Nat :=
  l.foldl
    (fun acc r =>
      match r.id, acc with
      | some v, some w => some (max v w)
      | some v, none => some v
      | none, a => a)
    none

/-- `Transactions._sort`: sort the store ascending by `time` (and reset the
index, which the positional `List` representation gives for free). -/
def sortByTime (l : List Record) : List Record :=
  l.insertionSort (fun a b => a.time ≤ b.time)

/-- One iteration of the id-backfill loop of `add_bulk`: if row `i` has no id
(or id 0), it receives `df['id'].max() + 1`, recomputed on the current store.
When no row has an id, the max is NaN and `NaN + 1` is still NaN, so the row
keeps an unset id. -/
def backfillStep (l : List Record) (i : Nat) : List Record :=
  match l[i]? with
  | none => l
  | some r =>
    if r.id = none ∨ r.id = some 0 then
      l.set i { r with id := (maxId l).map (· + 1) }
    else l

/-- The id-backfill pass of `add_bulk`: `for i in range(0, len(df))`. -/
def backfillIds (l : List Record) : List Record :=
  (List.range l.length).foldl backfillStep l

/-- The source-lookup loop used by `add`, `update` and `search`:
`for s in sources: if s.name.lower() == source.lower(): src = s`
(the last match wins). -/
def lookupSource (srcs : List Source) (name : String) : Option Source :=
  srcs.foldl (fun acc s => if strLower s.name = strLower name then some s else acc) none

/-- Vectorized assignment `df.loc[targets, cols] = ...` applying `f` to each
row whose position is in `targets`; structurally recursive positional walk. -/
def setAtAux (f : Record → Record) (targets : List Nat) : Nat → List Record → List Record
  | _, [] => []
  | j, r :: rs => (if j ∈ targets then f r else r) :: setAtAux f targets (j + 1) rs

/-- Apply `f` to the rows of `recs` at the positions listed in `targets`. -/
def setAt (recs : List Record) (targets : List Nat) (f : Record → Record) : List Record :=
  setAtAux f targets 0 recs

/-- `Transactions.add`: validate the source, assign `int(df['id'].max() + 1)`
(a `ValueError` on an id-less store), build the row with
`total = amount + fee`, append and re-sort. The `timezone` parameter only
affects the normalization of `time`, which is modelled as already normalized. -/
def add (s : Trans) (time : Nat) (type : String) (source : String) (desc : String)
    (amount : Int) (fee : Int) (note : Option String) (category : Option String)
    (tags : Option (List String)) : Outcome × Trans :=
  match lookupSource s.srcs source with
  | none => (.fail .unknownSource, s)
  | some src =>
    match maxId s.records with
    | none => (.raised "ValueError", s)
    | some m =>
      let r : Record :=
        { id := some (m + 1), time := time, input := "manual", type := some type,
          source := src.name, source_id := src.id, desc := some desc,
          amount := amount, fee := fee, total := amount + fee, curr := src.currency,
          note := note, system := none, allot := none, link := none,
          category := category,
          tags := tags.map (fun ts => ",".intercalate (ts.map canonTag)) }
      (.ok, { s with records := sortByTime (s.records ++ [r]) })

/-- `Transactions.add_bulk`: merge the batches
(`self._df = new_df if self._df.empty else concat`), re-sort, then backfill
missing ids. The typed model raises no exception, so the `except` branch is
unreachable and the call always succeeds. -/
def add_bulk (s : Trans) (new_dfs : List (List Record)) : Outcome × Trans :=
  let merged := new_dfs.foldl (fun acc df => if acc.isEmpty then df else acc ++ df) s.records
  (.ok, { s with records := backfillIds (sortByTime merged) })

/-- Sign normalization and the precondition checks of `Transactions.allot`:
the expense branch runs only when `amount ≠ 0` and the current total is
negative, the income branch only when `fee ≠ 0` and the total is positive;
any other combination skips every check and keeps the portions as given. -/
def normalizePortion (t : Record) (amount fee : Int) : Except TErr (Int × Int) :=
  if amount ≠ 0 ∧ t.total < 0 then
    let a := if 0 < amount then -amount else amount
    let f := if 0 < fee then -fee else fee
    if a + f < t.total then .error .splitExceedsTotal
    else if a < t.amount ∨ f < t.fee then .error .splitExceedsField
    else .ok (a, f)
  else if fee ≠ 0 ∧ 0 < t.total then
    let a := if amount < 0 then -amount else amount
    let f := if fee < 0 then -fee else fee
    if t.total < a + f then .error .splitExceedsTotal
    else if t.amount < a ∨ t.fee < f then .error .splitExceedsField
    else .ok (a, f)
  else .ok (amount, fee)

/-- Category carried by the new piece of a split: the original's when the
parameter is omitted, else the canonicalized parameter
(`Config.add_new_category`). -/
def allotCategory (category : Option String) (t : Record) : Option String :=
  match category with
  | none => t.category
  | some c => some (canonCategory c)

/-- Tags carried by the new piece of a split: the original's when the
parameter is omitted, else the comma-joined canonicalized list. -/
def allotTags (tags : Option (List String)) (t : Record) : Option String :=
  match tags with
  | none => t.tags
  | some ts => some (",".intercalate (ts.map canonTag))

/-- `Transactions.allot`: split a portion of row `i` into a new row. On
success the original is decremented, its `allot` set to its own id, and the
new piece (carrying the portion, the original's descriptive fields and
`allot = original id`) is appended through `add_bulk`. -/
def allot (s : Trans) (i : Nat) (amount fee : Int) (note : Option String)
    (category : Option String) (tags : Option (List String)) : Outcome × Trans :=
  if amount = 0 ∧ fee = 0 then (.fail .nothingToSplit, s)
  else
    match s.records[i]? with
    | none => (.raised "KeyError", s)
    | some t =>
      match normalizePortion t amount fee with
      | .error e => (.fail e, s)
      | .ok (a, f) =>
        if t.allot ≠ none ∧ t.allot ≠ t.id then (.fail .alreadySplitPiece, s)
        else
          let catV := allotCategory category t
          let tagV := allotTags tags t
          let orig := { t with
            amount := t.amount - a, fee := t.fee - f,
            total := (t.amount - a) + (t.fee - f), allot := t.id }
          let piece : Record :=
            { id := none, time := t.time, input := "manual", type := t.type,
              source := t.source, source_id := t.source_id, desc := t.desc,
              amount := a, fee := f, total := a + f, curr := t.curr, note := note,
              system := none, allot := t.id, link := none,
              category := catV, tags := tagV }
          let res := add_bulk { s with records := s.records.set i orig } [[piece]]
          (if res.1 = Outcome.ok then Outcome.ok else .fail .addBulkIssue, res.2)

/-- Distinct non-null `link` values among the target rows, first occurrences
first: `search(list_i).dropna(subset=['link']).drop_duplicates(subset=['link'])`. -/
def distinctLinks (ts : List Record) : List Nat :=
  ts.foldl
    (fun acc r =>
      match r.link with
      | none => acc
      | some v => if v ∈ acc then acc else acc ++ [v])
    []

/-- `Transactions.link`: refuse fewer than two targets, refuse more than one
distinct existing link value, otherwise reuse the unique existing value or
mint the first target's own id, and stamp it on every target. -/
def link (s : Trans) (list_i : List Nat) : Outcome × Trans :=
  if list_i.length < 2 then (.fail .insufficientTargets, s)
  else if list_i.any (fun j => s.records.length ≤ j) then (.raised "KeyError", s)
  else
    let trecs := list_i.filterMap (fun j => s.records[j]?)
    let distinct := distinctLinks trecs
    if 1 < distinct.length then (.fail .conflictingLinks, s)
    else
      let idv : Option Nat :=
        match distinct with
        | v :: _ => some v
        | [] => list_i.head?.bind (fun j0 => (s.records[j0]?).bind Record.id)
      match idv with
      | none => (.raised "ValueError", s)
      | some v =>
        (.ok, { s with records := setAt s.records list_i (fun r => { r with link := some v }) })

/-- One optional-field step of `update`: `if x is not None: df.loc[i, col] = ...`,
with `f x` the per-row column assignment. -/
def optStep {α : Type} (tg : List Nat) (f : α → Record → Record) (o : Option α)
    (l : List Record) : List Record :=
  match o with
  | none => l
  | some x => setAt l tg (f x)

/-- Keyword arguments of `Transactions.update`; the Python `index: int` form
is the singleton-list case. -/
structure UpdArgs where
  index : Option (List Nat) := none
  search_result : Option (List Nat) := none
  time : Option Nat := none
  type : Option String := none
  source : Option String := none
  description : Option String := none
  amount : Option Int := none
  fee : Option Int := none
  note : Option String := none
  system : Option String := none
  category : Option String := none
  tags : Option (List String) := none
  overwrite_tags : Bool := true
deriving DecidableEq

/-- `Transactions.update`: target selection, then the field-by-field mutation
sequence, in source order. Two slips of the source are modelled faithfully:
a provided `type` is written into the `desc` column, and an unknown `source`
sets the failure flags but misses a `return`, so the call dereferences `None`
and raises `AttributeError` after `input` (and possibly `time`, `desc`) were
already written. A non-overwrite tag merge subscripts a scalar and raises
`TypeError` on any non-empty target list. -/
def update (s : Trans) (a : UpdArgs) : Outcome × Trans :=
  if a.index.isNone ∧ a.search_result.isNone then (.fail .ambiguousTarget, s)
  else if a.index.isSome ∧ a.search_result.isSome then (.fail .ambiguousTarget, s)
  else
    let i : List Nat :=
      match a.index, a.search_result with
      | some idx, _ => idx
      | none, some sr => sr
      | none, none => []
    if a.index.isNone ∧ i.isEmpty then (.fail .emptySearch, s)
    else
      let recs1 := optStep i (fun tm r => { r with time := tm }) a.time s.records
      let recs2 := setAt recs1 i (fun r => { r with input := "updated" })
      let recs3 := optStep i (fun ty r => { r with desc := some ty }) a.type recs2
      let srcStep : Except Unit (List Record) :=
        match a.source with
        | none => .ok recs3
        | some nm =>
          match lookupSource s.srcs nm with
          | none => .error ()
          | some src => .ok (setAt recs3 i (fun r => { r with source := src.name, source_id := src.id }))
      match srcStep with
      | .error _ => (.raised "AttributeError", { s with records := recs3 })
      | .ok recs4 =>
        let recs5 := optStep i (fun d r => { r with desc := some d }) a.description recs4
        let recs6 := optStep i (fun v r => { r with amount := v }) a.amount recs5
        let recs7 := optStep i (fun v r => { r with fee := v }) a.fee recs6
        let recs8 :=
          if a.amount.isSome ∨ a.fee.isSome then
            setAt recs7 i (fun r => { r with total := r.amount + r.fee })
          else recs7
        let recs9 := optStep i (fun n r => { r with note := some n }) a.note recs8
        let recs10 := optStep i (fun sys r => { r with system := some sys }) a.system recs9
        let recs11 := optStep i (fun c r => { r with category := some (canonCategory c) }) a.category recs10
        match a.tags with
        | none => (.ok, { s with records := recs11 })
        | some ts =>
          if a.overwrite_tags then
            (.ok, { s with records := setAt recs11 i (fun r => { r with tags := some (",".intercalate (ts.map canonTag)) }) })
          else if i.isEmpty then (.ok, { s with records := recs11 })
          else (.raised "TypeError", { s with records := recs11 })

/-- The file system seen by persistence: file name → stored table. -/
structure FS where
  files : List (String × List Record)
deriving DecidableEq

/-- Overwrite-or-create a file. -/
def FS.write (fs : FS) (name : String) (content : List Record) : FS :=
  if (fs.files.map Prod.fst).contains name then
    ⟨fs.files.map (fun p => if p.1 = name then (name, content) else p)⟩
  else ⟨fs.files ++ [(name, content)]⟩

/-- Read a file, `none` when absent. -/
def FS.read (fs : FS) (name : String) : Option (List Record) :=
  ((fs.files.filter (fun p => p.1 = name)).head?).map Prod.snd

/-- `Transactions.save`: writes the table to `'transactions_.csv'` — the file
name spelled at `transactions.py:459`, with the stray underscore. -/
def save (s : Trans) (fs : FS) : Outcome × FS :=
  (.ok, fs.write "transactions_.csv" s.records)

/-- `Transactions.__init__` loading the store: reads `'transactions.csv'`;
a missing file yields the empty schema-only table. -/
def load (fs : FS) (srcs : List Source) : Trans :=
  match fs.read "transactions.csv" with
  | some recs => { records := recs, srcs := srcs }
  | none => { records := [], srcs := srcs }

/-- `Transactions.backup`: write a timestamped snapshot
`'transactions_<ts>.csv'`; `writeOk` models whether the `to_csv` call
succeeds — on failure the result is a failure `StdReturn` and nothing is
written. -/
def backup (s : Trans) (fs : FS) (ts : String) (writeOk : Bool) : Outcome × FS :=
  if writeOk then (.ok, fs.write ("transactions_" ++ ts ++ ".csv") s.records)
  else (.fail .ioError, fs)

/-- `Transactions.reset`: call `backup` (its return value is discarded) and
replace the store with the empty schema-only table. -/
def reset (s : Trans) (fs : FS) (ts : String) (writeOk : Bool) : Trans × FS :=
  let b := backup s fs ts writeOk
  ({ s with records := [] }, b.2)

/-- The money-relevant view of a row: everything except the backfilled `id`
and the descriptive fields — amount, fee, total and the `allot` marker. -/
def money (r : Record) : Int × Int × Int × Option Nat := (r.amount, r.fee, r.total, r.allot)

/-- The per-row total invariant. -/
def rowOk (r : Record) : Prop := r.total = r.amount + r.fee

instance (r : Record) : Decidable (rowOk r) := by unfold rowOk; infer_instance

/-- `total = amount + fee` on every row of the table. -/
def totalsOk (l : List Record) : Prop := ∀ r ∈ l, rowOk r

instance (l : List Record) : Decidable (totalsOk l) := by unfold totalsOk; infer_instance

/-- The invariant stated on the money view alone. -/
def moneyOk (m : Int × Int × Int × Option Nat) : Prop := m.2.2.1 = m.1 + m.2.1

/-! Concrete fixtures used by witnesses and counterexamples, matching the
scenarios of the specification (one expense of amount −100, fee −20,
total −120 with id 1; an id-less copy; a three-record store with ids 3, 7, 9). -/

/-- Fixture: the record of scenarios A and B. -/
def recA : Record :=
  { id := some 1, time := 10, input := "imported", type := some "CARD",
    source := "Bank", source_id := 1, desc := some "orig", amount := -100,
    fee := -20, total := -120, curr := "EUR", note := none, system := none,
    allot := none, link := none, category := none, tags := none }

/-- Fixture: a one-record store with a registered source. -/
def storeA : Trans := ⟨[recA], [⟨"Bank", 1, "EUR"⟩]⟩

/-- Fixture: `recA` without an id, as a normalized import batch produces it. -/
def recNoId : Record := { recA with id := none }

/-- Fixture: an empty store with a registered source. -/
def storeEmpty : Trans := ⟨[], [⟨"Bank", 1, "EUR"⟩]⟩

/-- Fixture: three unlinked records with ids 3, 7, 9 (scenario C). -/
def storeLinks : Trans :=
  ⟨[{ recA with id := some 3, time := 1 },
    { recA with id := some 7, time := 2 },
    { recA with id := some 9, time := 3 }], []⟩

/-- Fixture: the empty file system. -/
def fsEmpty : FS := ⟨[]⟩

end Kaeomm

/-! ## Infrastructure lemmas -/

namespace Kaeomm

theorem list_set_self {α : Type} (l : List α) (i : Nat) (a : α)
    (h : l[i]? = some a) : l.set i a = l := by
  induction l generalizing i with
  | nil => simp at h
  | cons x xs ih =>
    cases i with
    | zero => simp at h; simp [List.set, h]
    | succ n =>
      simp only [List.getElem?_cons_succ] at h
      simp [List.set, ih n h]

theorem money_backfillStep (l : List Record) (i : Nat) :
    (backfillStep l i).map money = l.map money := by
  unfold backfillStep
  cases h : l[i]? with
  | none => rfl
  | some r =>
    by_cases hid : r.id = none ∨ r.id = some 0
    · simp only [hid, if_pos]
      rw [List.map_set]
      have hm : (l.map money)[i]? = some (money r) := by
        rw [List.getElem?_map, h]; rfl
      have : money { r with id := (maxId l).map (· + 1) } = money r := rfl
      rw [this, list_set_self _ _ _ hm]
    · simp only [hid, if_neg, not_false_iff]

theorem money_backfill_fold (idxs : List Nat) (l : List Record) :
    ((idxs.foldl backfillStep l).map money) = l.map money := by
  induction idxs generalizing l with
  | nil => rfl
  | cons j js ih =>
    simp only [List.foldl_cons]
    rw [ih, money_backfillStep]

theorem money_backfillIds (l : List Record) :
    (backfillIds l).map money = l.map money :=
  money_backfill_fold _ l

theorem perm_sortByTime (l : List Record) : (sortByTime l).Perm l :=
  List.perm_insertionSort _ l

theorem rowOk_iff_moneyOk (r : Record) : rowOk r ↔ moneyOk (money r) := Iff.rfl

theorem totalsOk_iff_money (l : List Record) :
    totalsOk l ↔ ∀ m ∈ l.map money, moneyOk m := by
  constructor
  · intro h m hm
    rcases List.mem_map.1 hm with ⟨r, hr, rfl⟩
    exact h r hr
  · intro h r hr
    exact h (money r) (List.mem_map.2 ⟨r, hr, rfl⟩)

theorem totalsOk_of_money_eq {l l' : List Record}
    (h : l'.map money = l.map money) : totalsOk l → totalsOk l' := by
  intro hl
  rw [totalsOk_iff_money, h, ← totalsOk_iff_money]
  exact hl

theorem totalsOk_backfillIds {l : List Record} (h : totalsOk l) :
    totalsOk (backfillIds l) :=
  totalsOk_of_money_eq (money_backfillIds l) h

theorem totalsOk_perm {l l' : List Record} (hp : l'.Perm l) (h : totalsOk l) :
    totalsOk l' := fun r hr => h r (hp.mem_iff.1 hr)

theorem totalsOk_sortByTime {l : List Record} (h : totalsOk l) :
    totalsOk (sortByTime l) :=
  totalsOk_perm (perm_sortByTime l) h

theorem totalsOk_append {l1 l2 : List Record} (h1 : totalsOk l1) (h2 : totalsOk l2) :
    totalsOk (l1 ++ l2) := by
  intro r hr
  rcases List.mem_append.1 hr with h | h
  · exact h1 r h
  · exact h2 r h

theorem totalsOk_set {l : List Record} {r : Record} {i : Nat}
    (h : totalsOk l) (hr : rowOk r) : totalsOk (l.set i r) := by
  intro x hx
  rcases List.mem_or_eq_of_mem_set hx with h' | rfl
  · exact h x h'
  · exact hr

theorem mem_setAtAux {f : Record → Record} {tg : List Nat} {n : Nat}
    {l : List Record} {a : Record} (h : a ∈ setAtAux f tg n l) :
    ∃ r ∈ l, a = r ∨ a = f r := by
  induction l generalizing n with
  | nil => simp [setAtAux] at h
  | cons x xs ih =>
    simp only [setAtAux, List.mem_cons] at h
    rcases h with h | h
    · by_cases hn : n ∈ tg
      · exact ⟨x, List.mem_cons_self x xs, Or.inr (by simpa [hn] using h)⟩
      · exact ⟨x, List.mem_cons_self x xs, Or.inl (by simpa [hn] using h)⟩
    · rcases ih h with ⟨r, hr, hor⟩
      exact ⟨r, List.mem_cons_of_mem x hr, hor⟩

theorem totalsOk_setAt {l : List Record} {tg : List Nat} {f : Record → Record}
    (hf : ∀ r, rowOk r → rowOk (f r)) (h : totalsOk l) : totalsOk (setAt l tg f) := by
  intro a ha
  rcases mem_setAtAux ha with ⟨r, hr, h1 | h1⟩
  · subst h1; exact h _ hr
  · subst h1; exact hf _ (h _ hr)

theorem setAtAux_setAtAux (f g : Record → Record) (tg : List Nat) (n : Nat)
    (l : List Record) :
    setAtAux f tg n (setAtAux g tg n l) = setAtAux (fun r => f (g r)) tg n l := by
  induction l generalizing n with
  | nil => rfl
  | cons x xs ih =>
    by_cases hn : n ∈ tg <;> simp [setAtAux, hn, ih]

theorem setAt_setAt (l : List Record) (tg : List Nat) (f g : Record → Record) :
    setAt (setAt l tg g) tg f = setAt l tg (fun r => f (g r)) :=
  setAtAux_setAtAux f g tg 0 l

theorem getElem?_setAtAux (f : Record → Record) (tg : List Nat) (n : Nat)
    (l : List Record) (k : Nat) :
    (setAtAux f tg n l)[k]? = (l[k]?).map (fun r => if (n + k) ∈ tg then f r else r) := by
  induction l generalizing n k with
  | nil => simp [setAtAux]
  | cons x xs ih =>
    cases k with
    | zero => simp [setAtAux]
    | succ m =>
      simp only [setAtAux, List.getElem?_cons_succ, ih (n + 1) m]
      have : n + 1 + m = n + (m + 1) := by omega
      rw [this]

theorem getElem?_setAt (l : List Record) (tg : List Nat) (f : Record → Record)
    (k : Nat) :
    (setAt l tg f)[k]? = (l[k]?).map (fun r => if k ∈ tg then f r else r) := by
  unfold setAt
  rw [getElem?_setAtAux]
  simp

theorem isEmpty_false_of_getElem? {l : List Record} {i : Nat} {a : Record}
    (h : l[i]? = some a) : l.isEmpty = false := by
  cases l with
  | nil => simp at h
  | cons x xs => rfl

theorem totalsOk_singleton {r : Record} (h : rowOk r) : totalsOk [r] := by
  intro x hx
  rcases List.mem_singleton.1 hx with rfl
  exact h

theorem totalsOk_mergeFold : ∀ (dfs : List (List Record)) (acc : List Record),
    totalsOk acc → (∀ df ∈ dfs, totalsOk df) →
    totalsOk (dfs.foldl (fun acc df => if acc.isEmpty then df else acc ++ df) acc) := by
  intro dfs
  induction dfs with
  | nil => intro acc hacc _; exact hacc
  | cons d ds ih =>
    intro acc hacc hdfs
    simp only [List.foldl_cons]
    apply ih
    · by_cases h : acc.isEmpty
      · simpa [h] using hdfs d (List.mem_cons_self d ds)
      · simp only [h, Bool.false_eq_true, if_false]
        exact totalsOk_append hacc (hdfs d (List.mem_cons_self d ds))
    · intro df hdf
      exact hdfs df (List.mem_cons_of_mem d hdf)

theorem totalsOk_add_bulk (s : Trans) (dfs : List (List Record))
    (hs : totalsOk s.records) (hdfs : ∀ df ∈ dfs, totalsOk df) :
    totalsOk (add_bulk s dfs).2.records :=
  totalsOk_backfillIds (totalsOk_sortByTime (totalsOk_mergeFold dfs s.records hs hdfs))

theorem totalsOk_add (s : Trans) (time : Nat) (type source desc : String)
    (amount fee : Int) (note category : Option String) (tags : Option (List String))
    (hs : totalsOk s.records) :
    totalsOk (add s time type source desc amount fee note category tags).2.records := by
  unfold add
  cases hls : lookupSource s.srcs source with
  | none => simp only [hls]; exact hs
  | some src =>
    simp only [hls]
    cases hmi : maxId s.records with
    | none => simp only [hmi]; exact hs
    | some m =>
      simp only [hmi]
      exact totalsOk_sortByTime (totalsOk_append hs (totalsOk_singleton rfl))

theorem totalsOk_allot (s : Trans) (i : Nat) (amount fee : Int)
    (note category : Option String) (tags : Option (List String))
    (hs : totalsOk s.records) :
    totalsOk (allot s i amount fee note category tags).2.records := by
  unfold allot
  repeat' split
  all_goals first
    | exact hs
    | exact totalsOk_add_bulk _ _ (totalsOk_set hs rfl)
        (fun df hdf => by
          rcases List.mem_singleton.1 hdf with rfl
          exact totalsOk_singleton rfl)

theorem totalsOk_link (s : Trans) (list_i : List Nat) (hs : totalsOk s.records) :
    totalsOk (link s list_i).2.records := by
  unfold link
  split
  · exact hs
  split
  · exact hs
  dsimp only
  split
  · exact hs
  split
  · exact hs
  · exact totalsOk_setAt (fun r hr => hr) hs

theorem totalsOk_optStep {α : Type} {tg : List Nat} {f : α → Record → Record}
    (o : Option α) {l : List Record} (hf : ∀ x r, rowOk r → rowOk (f x r))
    (h : totalsOk l) : totalsOk (optStep tg f o l) := by
  cases o with
  | none => exact h
  | some x => exact totalsOk_setAt (hf x) h

theorem totalsOk_moneyPhase (tg : List Nat) (oa ofe : Option Int)
    {l : List Record} (h : totalsOk l) :
    totalsOk (if oa.isSome ∨ ofe.isSome then
        setAt (optStep tg (fun v r => { r with fee := v }) ofe
          (optStep tg (fun v r => { r with amount := v }) oa l)) tg
          (fun r => { r with total := r.amount + r.fee })
      else optStep tg (fun v r => { r with fee := v }) ofe
        (optStep tg (fun v r => { r with amount := v }) oa l)) := by
  cases oa with
  | none =>
    cases ofe with
    | none => simpa [optStep] using h
    | some v =>
      simp only [optStep, Option.isSome_none, Option.isSome_some, Bool.false_eq_true,
        or_true, if_true]
      rw [setAt_setAt]
      exact totalsOk_setAt (fun r _ => rfl) h
  | some w =>
    cases ofe with
    | none =>
      simp only [optStep, Option.isSome_none, Option.isSome_some, Bool.false_eq_true,
        or_false, if_true]
      rw [setAt_setAt]
      exact totalsOk_setAt (fun r _ => rfl) h
    | some v =>
      simp only [optStep, Option.isSome_some, or_self, if_true]
      rw [setAt_setAt, setAt_setAt]
      exact totalsOk_setAt (fun r _ => rfl) h

theorem totalsOk_updHead (s : Trans) (a : UpdArgs) (tg : List Nat)
    (hs : totalsOk s.records) :
    totalsOk (optStep tg (fun ty r => { r with desc := some ty }) a.type
      (setAt (optStep tg (fun tm r => { r with time := tm }) a.time s.records) tg
        (fun r => { r with input := "updated" }))) :=
  totalsOk_optStep _ (fun x r hr => hr)
    (totalsOk_setAt (fun r hr => hr) (totalsOk_optStep _ (fun x r hr => hr) hs))

theorem totalsOk_updTail (a : UpdArgs) (tg : List Nat) (recs4 : List Record)
    (h4 : totalsOk recs4) :
    totalsOk (optStep tg (fun c r => { r with category := some (canonCategory c) }) a.category
      (optStep tg (fun sys r => { r with system := some sys }) a.system
        (optStep tg (fun n r => { r with note := some n }) a.note
          (if a.amount.isSome ∨ a.fee.isSome then
            setAt (optStep tg (fun v r => { r with fee := v }) a.fee
              (optStep tg (fun v r => { r with amount := v }) a.amount
                (optStep tg (fun d r => { r with desc := some d }) a.description recs4))) tg
              (fun r => { r with total := r.amount + r.fee })
          else optStep tg (fun v r => { r with fee := v }) a.fee
            (optStep tg (fun v r => { r with amount := v }) a.amount
              (optStep tg (fun d r => { r with desc := some d }) a.description recs4)))))) :=
  totalsOk_optStep _ (fun x r hr => hr)
    (totalsOk_optStep _ (fun x r hr => hr)
      (totalsOk_optStep _ (fun x r hr => hr)
        (totalsOk_moneyPhase _ _ _
          (totalsOk_optStep _ (fun x r hr => hr) h4))))

theorem totalsOk_update (s : Trans) (a : UpdArgs) (hs : totalsOk s.records) :
    totalsOk (update s a).2.records := by
  unfold update
  split
  · exact hs
  split
  · exact hs
  dsimp only
  generalize (match a.index, a.search_result with
    | some idx, _ => idx
    | none, some sr => sr
    | none, none => ([] : List Nat)) = tg
  split
  · exact hs
  split
  · exact totalsOk_updHead s a tg hs
  next recs4 heq =>
    have h4 : totalsOk recs4 := by
      cases hsrc : a.source with
      | none =>
        rw [hsrc] at heq
        cases heq
        exact totalsOk_updHead s a tg hs
      | some nm =>
        rw [hsrc] at heq
        dsimp only at heq
        cases hls : lookupSource s.srcs nm with
        | none => rw [hls] at heq; cases heq
        | some src =>
          rw [hls] at heq
          cases heq
          exact totalsOk_setAt (fun r hr => hr) (totalsOk_updHead s a tg hs)
    split
    · exact totalsOk_updTail a tg recs4 h4
    split
    · exact totalsOk_setAt (fun r hr => hr) (totalsOk_updTail a tg recs4 h4)
    split
    · exact totalsOk_updTail a tg recs4 h4
    · exact totalsOk_updTail a tg recs4 h4

/-- Claim C3 (code-bug exhibit): `add_bulk` into an empty store with all
incoming ids unset leaves the ids unset — `df['id'].max()` over an id-less
column is NaN and `NaN + 1` is NaN — while the call still reports success;
ids are only backfilled once some record carries an id, as the second
conjunct shows. So after such a call the store does not have unique non-zero
ids, contradicting the claim's "including when the store was empty". -/
theorem claim_c3_bug :
    (add_bulk ⟨[], []⟩ [[recNoId]]).1 = Outcome.ok ∧
    ((add_bulk ⟨[], []⟩ [[recNoId]]).2.records.map Record.id) = [none] ∧
    ((add_bulk storeA [[recNoId]]).2.records.map Record.id) = [some 1, some 2] := by
  decide

/-- Claim C4 (code-bug exhibit): `save` writes `'transactions_.csv'` while the
loader reads `'transactions.csv'`, so saving a non-empty store into an empty
file system and re-initializing yields the empty store, not the saved
multiset of records. -/
theorem claim_c4_bug :
    storeA.records ≠ [] ∧
    (save storeA fsEmpty).1 = Outcome.ok ∧
    (load (save storeA fsEmpty).2 storeA.srcs).records = [] := by
  decide

/-- Claim C7 (code-bug exhibit): an `update` that provides only `type` reports
success but writes the value into the `desc` column and leaves the `type`
column unchanged (while `input` is marked updated as claimed). -/
theorem claim_c7_bug :
    (update storeA { index := some [0], type := some "CASH" }).1 = Outcome.ok ∧
    ((update storeA { index := some [0], type := some "CASH" }).2.records.map Record.desc)
      = [some "CASH"] ∧
    ((update storeA { index := some [0], type := some "CASH" }).2.records.map Record.type)
      = [some "CARD"] ∧
    ((update storeA { index := some [0], type := some "CASH" }).2.records.map Record.input)
      = ["updated"] := by
  decide

/-- Claim C8 (code-bug exhibit): an `update` naming an unregistered source
does not return an `UnknownSource` failure result — the missing `return`
makes it dereference `None` and raise `AttributeError` — and the store is
not left unmodified: the targeted record's `input` column has already been
stamped `'updated'`. -/
theorem claim_c8_bug :
    (update storeA { index := some [0], source := some "Nope" }).1
      = Outcome.raised "AttributeError" ∧
    ((update storeA { index := some [0], source := some "Nope" }).2.records.map Record.input)
      = ["updated"] ∧
    (update storeA { index := some [0], source := some "Nope" }).2.records ≠ storeA.records := by
  decide

/-- Claim C10: `reset` replaces the store with the empty schema-only table no
matter how the preceding `backup` went: the backup result is never examined,
so the records are discarded even when the backup write fails (third and
fourth conjuncts: the failing backup really fails and writes nothing). -/
theorem claim_c10_reset_ignores_backup :
    ∀ (s : Trans) (fs : FS) (ts : String),
      (reset s fs ts true).1.records = [] ∧
      (reset s fs ts false).1.records = [] ∧
      (backup s fs ts false).1 = Outcome.fail TErr.ioError ∧
      (reset s fs ts false).2 = fs := by
  intro s fs ts
  exact ⟨rfl, rfl, rfl, rfl⟩

/-- Claim C1: every mutating call preserves the ledger invariant
`total = amount + fee` on every record of the store — `add` and `allot`
compute `total` as `amount + fee` for the records they write, `update`
recomputes it for every targeted record whenever `amount` or `fee` is
provided, `add_bulk` preserves it when the incoming batches satisfy it, and
`link` does not touch the money columns. -/
theorem claim_c1_total_invariant :
    ∀ (s : Trans) (o : Outcome) (s' : Trans) (time : Nat)
      (type source desc : String) (amount fee : Int)
      (note category : Option String) (tags : Option (List String))
      (dfs : List (List Record)) (i : Nat) (targets : List Nat) (a : UpdArgs),
      totalsOk s.records →
      ((add s time type source desc amount fee note category tags = (o, s') →
          totalsOk s'.records) ∧
       ((∀ df ∈ dfs, totalsOk df) → add_bulk s dfs = (o, s') → totalsOk s'.records) ∧
       (allot s i amount fee note category tags = (o, s') → totalsOk s'.records) ∧
       (update s a = (o, s') → totalsOk s'.records) ∧
       (link s targets = (o, s') → totalsOk s'.records)) := by
  intro s o s' time type source desc amount fee note category tags dfs i targets a hs
  refine ⟨?_, ?_, ?_, ?_, ?_⟩
  · intro h
    have h2 : s' = (add s time type source desc amount fee note category tags).2 := by
      rw [h]
    rw [h2]
    exact totalsOk_add s time type source desc amount fee note category tags hs
  · intro hdfs h
    have h2 : s' = (add_bulk s dfs).2 := by rw [h]
    rw [h2]
    exact totalsOk_add_bulk s dfs hs hdfs
  · intro h
    have h2 : s' = (allot s i amount fee note category tags).2 := by rw [h]
    rw [h2]
    exact totalsOk_allot s i amount fee note category tags hs
  · intro h
    have h2 : s' = (update s a).2 := by rw [h]
    rw [h2]
    exact totalsOk_update s a hs
  · intro h
    have h2 : s' = (link s targets).2 := by rw [h]
    rw [h2]
    exact totalsOk_link s targets hs

/-- Witness for C1: the invariant holds on the fixture store and is preserved
through a concrete `add`. -/
theorem claim_c1_witness :
    totalsOk storeA.records ∧
    totalsOk ((add storeA 5 "CASH" "bank" "w" (-10) (-2) none none none).2.records) := by
  refine ⟨by decide, ?_⟩
  exact (claim_c1_total_invariant storeA
    (add storeA 5 "CASH" "bank" "w" (-10) (-2) none none none).1
    (add storeA 5 "CASH" "bank" "w" (-10) (-2) none none none).2
    5 "CASH" "bank" "w" (-10) (-2) none none none [] 0 [] {} (by decide)).1 rfl

/-- Claim C9: `add` assigns the fresh id as `int(df['id'].max() + 1)`; on an
empty store the max of the id column is NaN and `int(NaN)` raises
`ValueError`, so the call raises instead of returning a result and nothing
is appended; conversely a successful `add` implies the store was non-empty. -/
theorem claim_c9_add_empty_raises :
    ∀ (s : Trans) (time : Nat) (type source desc : String) (amount fee : Int)
      (note category : Option String) (tags : Option (List String)),
      (s.records = [] → (lookupSource s.srcs source).isSome = true →
        add s time type source desc amount fee note category tags
          = (.raised "ValueError", s)) ∧
      (∀ o s', add s time type source desc amount fee note category tags = (o, s') →
        o = Outcome.ok → s.records ≠ []) := by
  intro s time type source desc amount fee note category tags
  constructor
  · intro hrec hls
    unfold add
    cases h : lookupSource s.srcs source with
    | none => rw [h] at hls; simp at hls
    | some src =>
      simp only [h]
      have hm : maxId s.records = none := by rw [hrec]; rfl
      simp only [hm]
  · intro o s' h hok hrec
    unfold add at h
    cases hl : lookupSource s.srcs source with
    | none =>
      rw [hl] at h
      dsimp only at h
      have := congrArg Prod.fst h
      rw [hok] at this
      exact Outcome.noConfusion this
    | some src =>
      rw [hl] at h
      dsimp only at h
      have hm : maxId s.records = none := by rw [hrec]; rfl
      rw [hm] at h
      dsimp only at h
      have := congrArg Prod.fst h
      rw [hok] at this
      exact Outcome.noConfusion this

/-- Witness for C9: on the concrete empty store with a registered source the
call raises and the store is unchanged. -/
theorem claim_c9_witness :
    storeEmpty.records = [] ∧ (lookupSource storeEmpty.srcs "bank").isSome = true ∧
    add storeEmpty 5 "CASH" "bank" "w" (-10) 0 none none none
      = (.raised "ValueError", storeEmpty) := by
  refine ⟨rfl, by decide, ?_⟩
  exact (claim_c9_add_empty_raises storeEmpty 5 "CASH" "bank" "w" (-10) 0
    none none none).1 rfl (by decide)

/-- Claim C5 is false as stated: a split whose combined portion exceeds the
record's total in magnitude can succeed and mutate the store. On the expense
record with total −120, `allot(i, amount=0, fee=-150)` engages neither
direction branch (`amount != 0 and total < 0` fails, `fee != 0 and total > 0`
fails), so no exceeds-check runs: the call succeeds although
`|0 + (-150)| = 150 > 120`, and the store changes. -/
theorem claim_c5_counterexample :
    ((0 : Int) + (-150)).natAbs > (recA.total).natAbs ∧
    (allot storeA 0 0 (-150) none none none).1 = Outcome.ok ∧
    (allot storeA 0 0 (-150) none none none).2.records ≠ storeA.records := by
  decide

/-- Claim C5 (amended): whenever a direction branch of `allot` engages —
a non-zero amount portion on a record with negative total, or a non-zero fee
portion on a record with positive total — a combined sign-normalized portion
exceeding the record's current total in magnitude fails with
`SplitExceedsTotal` and the store is left completely unchanged; in
particular scenario B (`split` of amount −150 on total −120) fails this way.
Calls that engage neither branch (such as a pure-fee portion on an expense)
bypass the check, as the counterexample shows. -/
theorem claim_c5_amended :
    ∀ (s : Trans) (i : Nat) (amount fee : Int) (note category : Option String)
      (tags : Option (List String)) (t : Record),
      s.records[i]? = some t →
      ((amount ≠ 0 ∧ t.total < 0 ∧
          (if 0 < amount then -amount else amount)
            + (if 0 < fee then -fee else fee) < t.total) ∨
       (fee ≠ 0 ∧ 0 < t.total ∧
          t.total < (if amount < 0 then -amount else amount)
            + (if fee < 0 then -fee else fee))) →
      allot s i amount fee note category tags = (.fail .splitExceedsTotal, s) := by
  intro s i amount fee note category tags t ht hcond
  have hnz : ¬(amount = 0 ∧ fee = 0) := by
    rcases hcond with ⟨ha, _, _⟩ | ⟨hf, _, _⟩
    · exact fun hc => ha hc.1
    · exact fun hc => hf hc.2
  have hnp : normalizePortion t amount fee = .error .splitExceedsTotal := by
    unfold normalizePortion
    rcases hcond with ⟨ha, hneg, hlt⟩ | ⟨hf, hpos, hgt⟩
    · rw [if_pos ⟨ha, hneg⟩]
      dsimp only
      rw [if_pos hlt]
    · have hnotexp : ¬(amount ≠ 0 ∧ t.total < 0) := fun hc => absurd hpos (by omega)
      rw [if_neg hnotexp, if_pos ⟨hf, hpos⟩]
      dsimp only
      rw [if_pos hgt]
  unfold allot
  rw [if_neg hnz, ht]
  dsimp only
  rw [hnp]

/-- Witness for the amended C5: scenario B — `allot` of amount −150, fee 0 on
the record with total −120 fails with `SplitExceedsTotal`, store unchanged. -/
theorem claim_c5_witness :
    storeA.records[0]? = some recA ∧
    (-150 : Int) ≠ 0 ∧ recA.total < 0 ∧
    (if (0 : Int) < -150 then -(-150 : Int) else -150)
      + (if (0 : Int) < 0 then -(0 : Int) else 0) < recA.total ∧
    allot storeA 0 (-150) 0 none none none = (.fail .splitExceedsTotal, storeA) := by
  refine ⟨rfl, by decide, by decide, by decide, ?_⟩
  exact claim_c5_amended storeA 0 (-150) 0 none none none recA rfl
    (Or.inl ⟨by decide, by decide, by decide⟩)

theorem normalizePortion_ok_signs {t : Record} {amount fee a f : Int}
    (h : normalizePortion t amount fee = .ok (a, f)) :
    (a = amount ∨ a = -amount) ∧ (f = fee ∨ f = -fee) := by
  unfold normalizePortion at h
  dsimp only at h
  split_ifs at h
  all_goals first
    | exact Except.noConfusion h
    | (injection h with h1; cases h1; exact ⟨by simp, by simp⟩)

theorem isEmpty_set_false {l : List Record} {i : Nat} {a r : Record}
    (h : l[i]? = some a) : (l.set i r).isEmpty = false := by
  cases l with
  | nil => simp at h
  | cons x xs => cases i <;> rfl

/-- Claim C2: a successful `allot` conserves amount, fee and total — the
reduced original plus the new piece sum, field by field, to the pre-split
original (for `total` under the ledger invariant on the original) — the
piece's `total` is its own `amount + fee`, its amount and fee are the
requested portions up to the direction sign-normalization, and both the
reduced original and the piece carry `allot` equal to the original's id.
The resulting store is exactly the original store with row `i` replaced by
the reduced original plus the appended piece, up to the re-sort by time and
the id backfill (stated on the id-less `money` view). -/
theorem claim_c2_allot_conserves :
    ∀ (s : Trans) (i : Nat) (amount fee : Int) (note category : Option String)
      (tags : Option (List String)) (s' : Trans) (t : Record),
      s.records[i]? = some t →
      t.total = t.amount + t.fee →
      allot s i amount fee note category tags = (.ok, s') →
      ∃ r p : Record,
        (s'.records.map money).Perm (((s.records.set i r) ++ [p]).map money) ∧
        r.amount + p.amount = t.amount ∧
        r.fee + p.fee = t.fee ∧
        r.total + p.total = t.total ∧
        r.allot = t.id ∧
        p.allot = t.id ∧
        p.total = p.amount + p.fee ∧
        (p.amount = amount ∨ p.amount = -amount) ∧
        (p.fee = fee ∨ p.fee = -fee) := by
  intro s i amount fee note category tags s' t ht htot hal
  unfold allot at hal
  split at hal
  · simp at hal
  rw [ht] at hal
  dsimp only at hal
  cases hnp : normalizePortion t amount fee with
  | error e =>
    rw [hnp] at hal
    simp at hal
  | ok af =>
    obtain ⟨a, f⟩ := af
    rw [hnp] at hal
    dsimp only at hal
    split at hal
    · simp at hal
    have hs2 := congrArg Prod.snd hal
    dsimp only at hs2
    refine ⟨{ t with
        amount := t.amount - a, fee := t.fee - f,
        total := (t.amount - a) + (t.fee - f), allot := t.id },
      { id := none, time := t.time, input := "manual", type := t.type,
        source := t.source, source_id := t.source_id, desc := t.desc,
        amount := a, fee := f, total := a + f, curr := t.curr, note := note,
        system := none, allot := t.id, link := none,
        category := allotCategory category t,
        tags := allotTags tags t },
      ?_, ?_, ?_, ?_, rfl, rfl, rfl, ?_, ?_⟩
    · rw [← hs2]
      unfold add_bulk
      dsimp only
      simp only [List.foldl_cons, List.foldl_nil, isEmpty_set_false ht,
        Bool.false_eq_true, if_false]
      rw [money_backfillIds]
      exact List.Perm.map money (perm_sortByTime _)
    · dsimp only; omega
    · dsimp only; omega
    · dsimp only; omega
    · exact (normalizePortion_ok_signs hnp).1
    · exact (normalizePortion_ok_signs hnp).2

/-- Witness for C2: scenario A — splitting amount −30, fee 0 off the record
with amount −100, fee −20, total −120 conserves amount, fee and total. -/
theorem claim_c2_witness :
    ∃ r p : Record,
      (((allot storeA 0 (-30) 0 none none none).2.records.map money)).Perm
        (((storeA.records.set 0 r) ++ [p]).map money) ∧
      r.amount + p.amount = recA.amount ∧
      r.fee + p.fee = recA.fee ∧
      r.total + p.total = recA.total ∧
      r.allot = recA.id ∧
      p.allot = recA.id ∧
      p.total = p.amount + p.fee ∧
      (p.amount = (-30 : Int) ∨ p.amount = -(-30 : Int)) ∧
      (p.fee = (0 : Int) ∨ p.fee = -(0 : Int)) :=
  claim_c2_allot_conserves storeA 0 (-30) 0 none none none
    (allot storeA 0 (-30) 0 none none none).2 recA rfl (by decide) (by decide)

/-- Claim C6: for a `link` call on two or more valid targets — if the targets
carry more than one distinct non-null link value, the call is refused with
`ConflictingLinks` and the store is unchanged; if exactly one distinct
non-null value `v` is present, `v` is stamped on the link field of every
target and nothing else changes; if none is present, the first target's own
id is stamped on every target and nothing else changes. -/
theorem claim_c6_link :
    ∀ (s : Trans) (targets : List Nat),
      2 ≤ targets.length →
      (∀ j ∈ targets, j < s.records.length) →
      ((1 < (distinctLinks (targets.filterMap (fun j => s.records[j]?))).length →
          link s targets = (.fail .conflictingLinks, s)) ∧
       (∀ v : Nat, distinctLinks (targets.filterMap (fun j => s.records[j]?)) = [v] →
          ∃ s', link s targets = (.ok, s') ∧
            (∀ j ∈ targets, (s'.records[j]?).map Record.link = some (some v)) ∧
            (∀ j, j ∉ targets → s'.records[j]? = s.records[j]?)) ∧
       (∀ (j0 v0 : Nat), distinctLinks (targets.filterMap (fun j => s.records[j]?)) = [] →
          targets.head? = some j0 → (s.records[j0]?).bind Record.id = some v0 →
          ∃ s', link s targets = (.ok, s') ∧
            (∀ j ∈ targets, (s'.records[j]?).map Record.link = some (some v0)) ∧
            (∀ j, j ∉ targets → s'.records[j]? = s.records[j]?))) := by
  intro s targets h2 hvalid
  have hn2 : ¬(targets.length < 2) := by omega
  have hanyP : ¬((targets.any fun j => s.records.length ≤ j) = true) := by
    simp only [List.any_eq_true, decide_eq_true_eq]
    rintro ⟨j, hj, hle⟩
    exact absurd (hvalid j hj) (by omega)
  refine ⟨?_, ?_, ?_⟩
  · intro hgt
    unfold link
    rw [if_neg hn2, if_neg hanyP]
    dsimp only
    rw [if_pos hgt]
  · intro v hdist
    unfold link
    rw [if_neg hn2, if_neg hanyP]
    dsimp only
    rw [hdist]
    have hlen : ¬(1 < ([v] : List Nat).length) := by simp
    rw [if_neg hlen]
    dsimp only
    refine ⟨_, rfl, ?_, ?_⟩
    · intro j hj
      dsimp only
      rw [getElem?_setAt, List.getElem?_eq_getElem (hvalid j hj)]
      simp [hj]
    · intro j hj
      dsimp only
      rw [getElem?_setAt]
      cases h : s.records[j]? <;> simp [hj]
  · intro j0 v0 hdist hhead hid
    unfold link
    rw [if_neg hn2, if_neg hanyP]
    dsimp only
    rw [hdist]
    have hlen : ¬(1 < ([] : List Nat).length) := by simp
    rw [if_neg hlen]
    dsimp only
    rw [hhead]
    simp only [Option.some_bind]
    rw [hid]
    refine ⟨_, rfl, ?_, ?_⟩
    · intro j hj
      dsimp only
      rw [getElem?_setAt, List.getElem?_eq_getElem (hvalid j hj)]
      simp [hj]
    · intro j hj
      dsimp only
      rw [getElem?_setAt]
      cases h : s.records[j]? <;> simp [hj]

/-- Witness for C6: scenario C — `link` of the unlinked records with ids 3
and 7 mints the first target's id 3 on both; the follow-up `link` of targets
7 and 9 finds the single existing value 3 and stamps it on both. -/
theorem claim_c6_witness :
    (∃ s', link storeLinks [0, 1] = (.ok, s') ∧
      (∀ j ∈ [0, 1], (s'.records[j]?).map Record.link = some (some 3)) ∧
      (∀ j, j ∉ ([0, 1] : List Nat) → s'.records[j]? = storeLinks.records[j]?)) ∧
    (∃ s'', link (link storeLinks [0, 1]).2 [1, 2] = (.ok, s'') ∧
      (∀ j ∈ [1, 2], (s''.records[j]?).map Record.link = some (some 3)) ∧
      (∀ j, j ∉ ([1, 2] : List Nat) →
        s''.records[j]? = (link storeLinks [0, 1]).2.records[j]?)) := by
  constructor
  · exact (claim_c6_link storeLinks [0, 1] (by decide) (by decide)).2.2 0 3
      (by decide) rfl (by decide)
  · exact (claim_c6_link (link storeLinks [0, 1]).2 [1, 2] (by decide)
      (by decide)).2.1 3 (by decide)

end Kaeomm
